import Mathlib

/-!
Shallow embedding of the sevenator DX7 packed-voice codec
(`src/dx7.rs` and `src/lib.rs`), together with theorems settling the
frozen claims about it.

Modelling conventions:
* Rust `u8` bytes are `Nat` values; casts `as u8` take the value mod 256.
* Rust `i32`/`i16`/`i8` values are `Int`.
* Rust panics (the `panic!` macro, failed slice indexing, `unwrap`)
  are modelled by `Option`: a function that can panic returns `none`
  in exactly the situations where the Rust code aborts.
* The `bit` crate's `bit_range`, `bit` and `set_bit_range` operations
  are modelled by `bitRange`, `bitAt` and `setBitRange` below.
* A Rust `String` is modelled by its UTF-8 byte list; `String::from_utf8`
  succeeds exactly when `utf8Valid` holds of the bytes.
-/

namespace Sevenator

set_option maxRecDepth 8000

/-- Rust cast `as u8` applied to a signed integer: value modulo 256. -/
def intToU8 (v : Int) : Nat := (v % 256).toNat

/-- Rust `u8` left shift: high bits that leave the byte are discarded. -/
def u8shl (x k : Nat) : Nat := (x <<< k) % 256

/-- The `bit` crate's `x.bit_range(a..b)`: bits `a` (inclusive) to `b` (exclusive). -/
def bitRange (x a b : Nat) : Nat := (x >>> a) % 2 ^ (b - a)

/-- The `bit` crate's `x.bit(i)`. -/
def bitAt (x i : Nat) : Bool := x.testBit i

/-- The `bit` crate's `x.set_bit_range(a..b, v)`: replace bits `a..b` of `x`
by the low `b - a` bits of `v`. -/
def setBitRange (x a b v : Nat) : Nat :=
  x / 2 ^ b * 2 ^ b + v % 2 ^ (b - a) * 2 ^ a + x % 2 ^ a

/-- Rust slice indexing `data[a..b]`: panics (`none`) unless `a ≤ b ≤ data.len()`. -/
def listSlice (data : List Nat) (a b : Nat) : Option (List Nat) :=
  if a ≤ b ∧ b ≤ data.length then some ((data.drop a).take (b - a)) else none

/-!  ### The `Subrange` newtypes of `src/dx7.rs`

Each newtype stores an `i32` and its `new` constructor panics when the
value is outside the declared range, so `new` is modelled as returning
`Option Int`.  `as_byte` is the `as u8` cast of the (possibly adjusted)
stored value. -/

/-- `UnsignedLevel::new` (range 0...99); panics out of range. -/
def UnsignedLevel.new (value : Int) : Option Int :=
  if 0 ≤ value ∧ value ≤ 99 then some value else none

/-- `impl From<u8> for UnsignedLevel`: `UnsignedLevel::new(value as i32)`. -/
def UnsignedLevel.fromU8 (value : Nat) : Option Int := UnsignedLevel.new value

/-- `UnsignedLevel::as_byte`: `self.0 as u8`. -/
def UnsignedLevel.asByte (v : Int) : Nat := intToU8 v

/-- `Algorithm::new` (range 1...32); panics out of range. -/
def Algorithm.new (value : Int) : Option Int :=
  if 1 ≤ value ∧ value ≤ 32 then some value else none

/-- `impl From<u8> for Algorithm`: `Algorithm::new(value as i32 + 1)`. -/
def Algorithm.fromU8 (value : Nat) : Option Int := Algorithm.new ((value : Int) + 1)

/-- `Algorithm::as_byte`: `(self.0 - 1) as u8` (adjust to 0...31 for SysEx). -/
def Algorithm.asByte (v : Int) : Nat := intToU8 (v - 1)

/-- `Detune::new` (range -7...+7); panics out of range. -/
def Detune.new (value : Int) : Option Int :=
  if -7 ≤ value ∧ value ≤ 7 then some value else none

/-- `impl From<u8> for Detune`: `Detune::new(value as i32)` — the wire byte is
passed through with no offset adjustment. -/
def Detune.fromU8 (value : Nat) : Option Int := Detune.new value

/-- `Detune::as_byte`: `(self.0 + 7) as u8` (adjust for SysEx). -/
def Detune.asByte (v : Int) : Nat := intToU8 (v + 7)

/-- `Coarse::new` (range 0...31); panics out of range. -/
def Coarse.new (value : Int) : Option Int :=
  if 0 ≤ value ∧ value ≤ 31 then some value else none

/-- `impl From<u8> for Coarse`. -/
def Coarse.fromU8 (value : Nat) : Option Int := Coarse.new value

/-- `Coarse::as_byte`. -/
def Coarse.asByte (v : Int) : Nat := intToU8 v

/-- `Depth::new` (range 0...7); panics out of range. -/
def Depth.new (value : Int) : Option Int :=
  if 0 ≤ value ∧ value ≤ 7 then some value else none

/-- `impl From<u8> for Depth`. -/
def Depth.fromU8 (value : Nat) : Option Int := Depth.new value

/-- `Depth::as_byte`. -/
def Depth.asByte (v : Int) : Nat := intToU8 v

/-! ### Envelope generator (`Envelope` in `src/dx7.rs`) -/

/-- The `Rates` 4-tuple of envelope rates. -/
structure Rates where
  r1 : Int
  r2 : Int
  r3 : Int
  r4 : Int
deriving DecidableEq

/-- The `Levels` 4-tuple of envelope levels. -/
structure Levels where
  l1 : Int
  l2 : Int
  l3 : Int
  l4 : Int
deriving DecidableEq

/-- `Envelope`: four rates and four levels. -/
structure Envelope where
  rates : Rates
  levels : Levels
deriving DecidableEq

/-- `Envelope::from_bytes`: rate1..4 then level1..4, each via
`UnsignedLevel::from(u8)` (panics above 99); indexing `data[0]..data[7]`
panics (`none`) when fewer than 8 bytes are present. -/
def Envelope.from_bytes (data : List Nat) : Option Envelope :=
  match data with
  | b0 :: b1 :: b2 :: b3 :: b4 :: b5 :: b6 :: b7 :: _ =>
    match UnsignedLevel.fromU8 b0, UnsignedLevel.fromU8 b1, UnsignedLevel.fromU8 b2,
          UnsignedLevel.fromU8 b3, UnsignedLevel.fromU8 b4, UnsignedLevel.fromU8 b5,
          UnsignedLevel.fromU8 b6, UnsignedLevel.fromU8 b7 with
    | some r1, some r2, some r3, some r4, some l1, some l2, some l3, some l4 =>
      some ⟨⟨r1, r2, r3, r4⟩, ⟨l1, l2, l3, l4⟩⟩
    | _, _, _, _, _, _, _, _ => none
  | _ => none

/-- `Envelope::from_packed_bytes` just delegates to `from_bytes`
(envelopes are never bit-packed). -/
def Envelope.from_packed_bytes (data : List Nat) : Option Envelope :=
  Envelope.from_bytes data

/-- `Envelope::to_bytes`: the eight `as_byte` values. -/
def Envelope.to_bytes (e : Envelope) : List Nat :=
  [UnsignedLevel.asByte e.rates.r1, UnsignedLevel.asByte e.rates.r2,
   UnsignedLevel.asByte e.rates.r3, UnsignedLevel.asByte e.rates.r4,
   UnsignedLevel.asByte e.levels.l1, UnsignedLevel.asByte e.levels.l2,
   UnsignedLevel.asByte e.levels.l3, UnsignedLevel.asByte e.levels.l4]

/-- `Envelope::to_packed_bytes` delegates to `to_bytes`. -/
def Envelope.to_packed_bytes (e : Envelope) : List Nat := e.to_bytes

/-! ### Scaling curves and keyboard level scaling -/

/-- `CurveStyle`. -/
inductive CurveStyle where
  | Linear
  | Exponential
deriving DecidableEq

/-- `ScalingCurve`: style plus sign. -/
structure ScalingCurve where
  curve : CurveStyle
  positive : Bool
deriving DecidableEq

/-- `ScalingCurve::lin_pos`. -/
def ScalingCurve.lin_pos : ScalingCurve := ⟨CurveStyle.Linear, true⟩

/-- `ScalingCurve::lin_neg`. -/
def ScalingCurve.lin_neg : ScalingCurve := ⟨CurveStyle.Linear, false⟩

/-- `ScalingCurve::exp_pos`. -/
def ScalingCurve.exp_pos : ScalingCurve := ⟨CurveStyle.Exponential, true⟩

/-- `ScalingCurve::exp_neg`. -/
def ScalingCurve.exp_neg : ScalingCurve := ⟨CurveStyle.Exponential, false⟩

/-- `ScalingCurve::from_byte`: 0 is LIN-, 1 is EXP-, 2 is EXP+, 3 is LIN+,
anything else falls through to LIN+. -/
def ScalingCurve.from_byte (b : Nat) : ScalingCurve :=
  match b with
  | 0 => ScalingCurve.lin_neg
  | 1 => ScalingCurve.exp_neg
  | 2 => ScalingCurve.exp_pos
  | 3 => ScalingCurve.lin_pos
  | _ => ScalingCurve.lin_pos

/-- `ScalingCurve::to_bytes`. -/
def ScalingCurve.to_bytes (c : ScalingCurve) : Nat :=
  match c with
  | ⟨CurveStyle.Linear, true⟩ => 3
  | ⟨CurveStyle.Linear, false⟩ => 0
  | ⟨CurveStyle.Exponential, true⟩ => 2
  | ⟨CurveStyle.Exponential, false⟩ => 1

/-- `KeyboardLevelScaling`. -/
structure KeyboardLevelScaling where
  breakpoint : Nat
  left_depth : Nat
  right_depth : Nat
  left_curve : ScalingCurve
  right_curve : ScalingCurve
deriving DecidableEq

/-- `KeyboardLevelScaling::new` (DX7 voice defaults). -/
def KeyboardLevelScaling.new : KeyboardLevelScaling :=
  ⟨39, 0, 0, ScalingCurve.lin_neg, ScalingCurve.lin_neg⟩

/-- `KeyboardLevelScaling::from_packed_bytes`: breakpoint, left depth,
right depth, then the left curve from the HIGH nibble `data[3] >> 4` and the
right curve from the LOW nibble `data[3] & 0x0f`. -/
def KeyboardLevelScaling.from_packed_bytes (data : List Nat) :
    Option KeyboardLevelScaling :=
  match data with
  | b0 :: b1 :: b2 :: b3 :: _ =>
    some ⟨b0, b1, b2, ScalingCurve.from_byte (b3 >>> 4),
          ScalingCurve.from_byte (Nat.land b3 0x0f)⟩
  | _ => none

/-- `KeyboardLevelScaling::to_packed_bytes`: the curve byte is
`left | (right << 2)`. -/
def KeyboardLevelScaling.to_packed_bytes (k : KeyboardLevelScaling) : List Nat :=
  [k.breakpoint, k.left_depth, k.right_depth,
   Nat.lor k.left_curve.to_bytes (k.right_curve.to_bytes <<< 2)]

/-! ### Operator -/

/-- `OperatorMode`. -/
inductive OperatorMode where
  | Ratio
  | Fixed
deriving DecidableEq

/-- Rust `mode as u8`: `Ratio` is 0, `Fixed` is 1. -/
def OperatorMode.asU8 : OperatorMode → Nat
  | OperatorMode.Ratio => 0
  | OperatorMode.Fixed => 1

/-- `Operator` of `src/dx7.rs`: the `Depth`, `Level`, `Coarse` and `Detune`
newtype fields are modelled by their stored `i32` values. -/
structure Operator where
  eg : Envelope
  kbd_level_scaling : KeyboardLevelScaling
  kbd_rate_scaling : Int
  amp_mod_sens : Nat
  key_vel_sens : Int
  output_level : Int
  mode : OperatorMode
  coarse : Int
  fine : Int
  detune : Int
deriving DecidableEq

/-- `Operator::from_packed_bytes`: envelope at `[0..8)`, packed keyboard level
scaling at `[8..12)`, then bit fields of `data[12]`, `data[13]`, `data[15]`
plus full bytes `data[14]` (output level) and `data[16]` (fine); the detune
wire value `data[12].bit_range(3..7)` is handed to `Detune::from(u8)`
unadjusted. -/
def Operator.from_packed_bytes (data : List Nat) : Option Operator :=
  match listSlice data 0 8, listSlice data 8 12, data.get? 12, data.get? 13,
        data.get? 14, data.get? 15, data.get? 16 with
  | some egB, some klsB, some b12, some b13, some b14, some b15, some b16 =>
    match Envelope.from_packed_bytes egB, KeyboardLevelScaling.from_packed_bytes klsB,
          Depth.fromU8 (bitRange b12 0 3), Depth.fromU8 (bitRange b13 2 5),
          UnsignedLevel.fromU8 b14, Coarse.fromU8 (bitRange b15 1 6),
          UnsignedLevel.fromU8 b16, Detune.fromU8 (bitRange b12 3 7) with
    | some eg, some kls, some krs, some kvs, some ol, some crs, some fin, some det =>
      some ⟨eg, kls, krs, bitRange b13 0 2, kvs, ol,
            if bitAt b15 0 then OperatorMode.Fixed else OperatorMode.Ratio,
            crs, fin, det⟩
    | _, _, _, _, _, _, _, _ => none
  | _, _, _, _, _, _, _ => none

/-- `Operator::to_packed_bytes`: envelope bytes, packed keyboard level scaling,
then `krs | (detune_wire << 3)`, `amp_mod_sens | (key_vel_sens << 2)`,
output level, `mode | (coarse << 1)`, fine. -/
def Operator.to_packed_bytes (op : Operator) : List Nat :=
  op.eg.to_packed_bytes ++ op.kbd_level_scaling.to_packed_bytes ++
  [Nat.lor (Depth.asByte op.kbd_rate_scaling) (u8shl (Detune.asByte op.detune) 3),
   Nat.lor op.amp_mod_sens (u8shl (Depth.asByte op.key_vel_sens) 2),
   UnsignedLevel.asByte op.output_level,
   Nat.lor op.mode.asU8 (u8shl (Coarse.asByte op.coarse) 1),
   UnsignedLevel.asByte op.fine]

/-! ### LFO -/

/-- `LfoWaveform`. -/
inductive LfoWaveform where
  | Triangle
  | SawDown
  | SawUp
  | Square
  | Sine
  | SampleAndHold
deriving DecidableEq

/-- Rust `wave as u8` for the `repr(u8)` enum. -/
def LfoWaveform.asU8 : LfoWaveform → Nat
  | LfoWaveform.Triangle => 0
  | LfoWaveform.SawDown => 1
  | LfoWaveform.SawUp => 2
  | LfoWaveform.Square => 3
  | LfoWaveform.Sine => 4
  | LfoWaveform.SampleAndHold => 5

/-- Decoding match on an LFO waveform wire value; out-of-range values 6 and 7
fall back to `Triangle` (lenient decode with a logged warning). -/
def LfoWaveform.fromWire (b : Nat) : LfoWaveform :=
  match b with
  | 0 => LfoWaveform.Triangle
  | 1 => LfoWaveform.SawDown
  | 2 => LfoWaveform.SawUp
  | 3 => LfoWaveform.Square
  | 4 => LfoWaveform.Sine
  | 5 => LfoWaveform.SampleAndHold
  | _ => LfoWaveform.Triangle

/-- `Lfo` of `src/dx7.rs`. -/
structure Lfo where
  speed : Int
  delay : Int
  pmd : Int
  amd : Int
  sync : Bool
  wave : LfoWaveform
  pitch_mod_sens : Int
deriving DecidableEq

/-- `Lfo::from_packed_bytes`: speed, delay, pmd, amd as full bytes, then
`data[4]` holds sync (bit 0), waveform (bits 1-3) and pitch mod sensitivity
(bits 4-6). -/
def Lfo.from_packed_bytes (data : List Nat) : Option Lfo :=
  match data with
  | b0 :: b1 :: b2 :: b3 :: b4 :: _ =>
    match UnsignedLevel.fromU8 b0, UnsignedLevel.fromU8 b1, UnsignedLevel.fromU8 b2,
          UnsignedLevel.fromU8 b3, Depth.fromU8 (bitRange b4 4 7) with
    | some sp, some de, some pm, some am, some pms =>
      some ⟨sp, de, pm, am, bitAt b4 0, LfoWaveform.fromWire (bitRange b4 1 4), pms⟩
    | _, _, _, _, _ => none
  | _ => none

/-- `Lfo::to_packed_bytes`: the trailing byte starts as the sync flag, then
`set_bit_range(1..4, wave)` and `set_bit_range(4..7, pitch_mod_sens)`. -/
def Lfo.to_packed_bytes (l : Lfo) : List Nat :=
  [UnsignedLevel.asByte l.speed, UnsignedLevel.asByte l.delay,
   UnsignedLevel.asByte l.pmd, UnsignedLevel.asByte l.amd,
   setBitRange (setBitRange (if l.sync then 1 else 0) 1 4 l.wave.asU8)
     4 7 (Depth.asByte l.pitch_mod_sens)]

/-! ### Transpose -/

/-- `Transpose::new`: values in -2...2 are kept, anything else is clamped
(`Transpose::is_clamped()` returns true, so the panic branch is dead). -/
def Transpose.new (value : Int) : Int :=
  if -2 ≤ value ∧ value ≤ 2 then value
  else if value < -2 then -2 else 2

/-- `Transpose::as_byte`: `(self.0 + 2) as u8 * 12` (convert to 0...48). -/
def Transpose.as_byte (t : Int) : Nat := intToU8 (t + 2) * 12

/-- `Transpose::from_byte`: `(b as i32 - 24) / 12` with Rust `i32` division
(truncation toward zero, `Int.div`), then clamped by `Transpose::new`. -/
def Transpose.from_byte (b : Nat) : Int :=
  Transpose.new (Int.tdiv ((b : Int) - 24) 12)

/-! ### Voice -/

/-- UTF-8 validation state machine: `start` expects a lead byte; the other
states encode how many continuation bytes remain and which restricted first
continuation range (after lead bytes E0, ED, F0, F4) applies. -/
inductive Utf8State where
  | start
  | one
  | two
  | twoE0
  | twoED
  | three
  | threeF0
  | threeF4

/-- Runs the UTF-8 validation state machine over a byte list (RFC 3629:
no surrogates, no overlong forms, code points at most U+10FFFF). -/
def utf8Run : Utf8State → List Nat → Bool
  | Utf8State.start, [] => true
  | _, [] => false
  | Utf8State.start, b :: r =>
    if b < 0x80 then utf8Run Utf8State.start r
    else if b < 0xC2 then false
    else if b < 0xE0 then utf8Run Utf8State.one r
    else if b = 0xE0 then utf8Run Utf8State.twoE0 r
    else if b = 0xED then utf8Run Utf8State.twoED r
    else if b < 0xF0 then utf8Run Utf8State.two r
    else if b = 0xF0 then utf8Run Utf8State.threeF0 r
    else if b = 0xF4 then utf8Run Utf8State.threeF4 r
    else if b < 0xF5 then utf8Run Utf8State.three r
    else false
  | Utf8State.one, b :: r =>
    if 0x80 ≤ b ∧ b < 0xC0 then utf8Run Utf8State.start r else false
  | Utf8State.two, b :: r =>
    if 0x80 ≤ b ∧ b < 0xC0 then utf8Run Utf8State.one r else false
  | Utf8State.twoE0, b :: r =>
    if 0xA0 ≤ b ∧ b < 0xC0 then utf8Run Utf8State.one r else false
  | Utf8State.twoED, b :: r =>
    if 0x80 ≤ b ∧ b < 0xA0 then utf8Run Utf8State.one r else false
  | Utf8State.three, b :: r =>
    if 0x80 ≤ b ∧ b < 0xC0 then utf8Run Utf8State.two r else false
  | Utf8State.threeF0, b :: r =>
    if 0x90 ≤ b ∧ b < 0xC0 then utf8Run Utf8State.two r else false
  | Utf8State.threeF4, b :: r =>
    if 0x80 ≤ b ∧ b < 0x90 then utf8Run Utf8State.two r else false

/-- `String::from_utf8` succeeds exactly on these byte lists. -/
def utf8Valid (bytes : List Nat) : Bool := utf8Run Utf8State.start bytes

/-- `Voice` of `src/dx7.rs`: the `operators: [Operator; 6]` array is modelled
by the six fields `op1`...`op6` (index `i` of the array is `op(i+1)`), and the
`name: String` by its UTF-8 byte list. -/
structure Voice where
  op1 : Operator
  op2 : Operator
  op3 : Operator
  op4 : Operator
  op5 : Operator
  op6 : Operator
  peg : Envelope
  alg : Int
  feedback : Int
  osc_sync : Bool
  lfo : Lfo
  transpose : Int
  name : List Nat
  op_flags : List Bool
deriving DecidableEq

/-- Rust `format!("\x7b:<10\x7d", name)`: pads on the right with spaces up to
width 10 but never truncates a longer name. -/
def padName (name : List Nat) : List Nat :=
  if name.length < 10 then name ++ List.replicate (10 - name.length) 32 else name

/-- Helper for `Operator::from_packed_bytes(data[a..b].to_vec())`. -/
def voiceOp (data : List Nat) (a b : Nat) : Option Operator :=
  match listSlice data a b with
  | some s => Operator.from_packed_bytes s
  | none => none

/-- Helper for `Envelope::from_packed_bytes(data[102..110].to_vec())`. -/
def voicePeg (data : List Nat) : Option Envelope :=
  match listSlice data 102 110 with
  | some s => Envelope.from_packed_bytes s
  | none => none

/-- Helper for `Lfo::from_packed_bytes(data[112..117].to_vec())`. -/
def voiceLfo (data : List Nat) : Option Lfo :=
  match listSlice data 112 117 with
  | some s => Lfo.from_packed_bytes s
  | none => none

/-- `Voice::from_packed_bytes`: operators decoded in reverse order from the
six 17-byte chunks (OP1 from `[85..102)` down to OP6 from `[0..17)`), pitch
envelope at `[102..110)`, algorithm from `data[110]`, feedback from
`data[111].bit_range(0..5)` (bits 0-4!), osc sync from `data[111].bit(3)`,
LFO from `[112..117)`, transpose from `data[117]`, name from
`String::from_utf8(data[118..128])` (unwrap panics on invalid UTF-8). -/
def Voice.from_packed_bytes (data : List Nat) : Option Voice :=
  match voiceOp data 85 102, voiceOp data 68 85, voiceOp data 51 68,
        voiceOp data 34 51, voiceOp data 17 34, voiceOp data 0 17 with
  | some o1, some o2, some o3, some o4, some o5, some o6 =>
    match voicePeg data, data.get? 110, data.get? 111, voiceLfo data,
          data.get? 117, listSlice data 118 128 with
    | some peg, some b110, some b111, some lfo, some b117, some nameB =>
      match Algorithm.fromU8 b110, Depth.fromU8 (bitRange b111 0 5),
            (if utf8Valid nameB then some nameB else none) with
      | some alg, some fb, some nm =>
        some ⟨o1, o2, o3, o4, o5, o6, peg, alg, fb, bitAt b111 3, lfo,
              Transpose.from_byte b117, nm, List.replicate 6 true⟩
      | _, _, _ => none
    | _, _, _, _, _, _ => none
  | _, _, _, _, _, _ => none

/-- `Voice::to_packed_bytes`: operators 6 down to 1, pitch envelope (not
packed), algorithm wire byte, `feedback | (osc_sync << 3)`, packed LFO,
transpose wire byte, then the space-padded name. -/
def Voice.to_packed_bytes (v : Voice) : List Nat :=
  v.op6.to_packed_bytes ++ v.op5.to_packed_bytes ++ v.op4.to_packed_bytes ++
  v.op3.to_packed_bytes ++ v.op2.to_packed_bytes ++ v.op1.to_packed_bytes ++
  v.peg.to_bytes ++
  [Algorithm.asByte v.alg,
   Nat.lor (Depth.asByte v.feedback) (u8shl (if v.osc_sync then 1 else 0) 3)] ++
  v.lfo.to_packed_bytes ++
  [Transpose.as_byte v.transpose] ++
  padName v.name

/-! ### Cartridge -/

/-- `Cartridge`: a vector of voices (`VOICE_COUNT = 32` in every constructor,
but the struct itself does not enforce it). -/
structure Cartridge where
  voices : List Voice

/-- `Cartridge::to_packed_bytes`: concatenation of the voices' packed bytes. -/
def Cartridge.to_packed_bytes (c : Cartridge) : List Nat :=
  (c.voices.map Voice.to_packed_bytes).flatten

/-- The decode loop of `Cartridge::from_packed_bytes`: `count` more voices to
read starting at `offset`, each from `data[offset..offset + 128]` (Rust slice
indexing panics, i.e. `none`, when the range exceeds the data). -/
def cartVoicesAux (data : List Nat) : Nat → Nat → Option (List Voice)
  | 0, _ => some []
  | Nat.succ n, offset =>
    (listSlice data offset (offset + 128)).bind fun s =>
      (Voice.from_packed_bytes s).bind fun v =>
        (cartVoicesAux data n (offset + 128)).bind fun rest =>
          some (v :: rest)

/-- `Cartridge::from_packed_bytes`: 32 voices of 128 bytes each, starting at
offset 0; the input length is never checked. -/
def Cartridge.from_packed_bytes (data : List Nat) : Option Cartridge :=
  match cartVoicesAux data 32 0 with
  | some vs => some ⟨vs⟩
  | none => none

/-! ### The init voice (`make_init_voice` in `src/dx7.rs`)

The source builds it through the panicking newtype constructors with
literal in-range arguments (for example `Depth::new(0)`), which are modelled
by the stored values directly. -/

/-- `Envelope::new`: rates 99,99,99,99 and levels 99,99,99,0. -/
def Envelope.newDefault : Envelope := ⟨⟨99, 99, 99, 99⟩, ⟨99, 99, 99, 0⟩⟩

/-- The `init_op1` operator of `make_init_voice`. -/
def init_op1 : Operator :=
  ⟨Envelope.newDefault, KeyboardLevelScaling.new, 0, 0, 0, 99,
   OperatorMode.Ratio, 1, 0, 0⟩

/-- Operators 2...6 of the init voice: like `init_op1` with output level 0. -/
def init_op_rest : Operator := { init_op1 with output_level := 0 }

/-- `make_init_voice`: the DX7 "INIT VOICE" (name bytes spell "INIT VOICE"). -/
def make_init_voice : Voice :=
  ⟨init_op1, init_op_rest, init_op_rest, init_op_rest, init_op_rest, init_op_rest,
   ⟨⟨99, 99, 99, 99⟩, ⟨50, 50, 50, 50⟩⟩, 1, 0, true,
   ⟨35, 0, 0, 0, true, LfoWaveform.Triangle, 3⟩, 0,
   [73, 78, 73, 84, 32, 86, 79, 73, 67, 69],
   List.replicate 6 true⟩

/-! ### `RangedValue` and `voice_checksum` (`src/lib.rs`) -/

/-- `RangeKind` of `src/lib.rs`. -/
inductive RangeKind where
  | OutputLevel
  | Rate
  | Level
  | Coarse
  | Fine
  | Algorithm
deriving DecidableEq

/-- `RangedValue::make_range`: the fixed `(start, end)` table (the source's
`RangeInclusiveWrapper` is modelled as a pair). -/
def make_range : RangeKind → Int × Int
  | RangeKind.OutputLevel => (0, 99)
  | RangeKind.Rate => (0, 99)
  | RangeKind.Level => (0, 99)
  | RangeKind.Coarse => (0, 31)
  | RangeKind.Fine => (0, 99)
  | RangeKind.Algorithm => (1, 32)

/-- `RangedValue`: kind, current value, and the stored range bounds
(`range.start` and `range.end` of the wrapper). -/
structure RangedValue where
  kind : RangeKind
  value : Int
  rangeLo : Int
  rangeHi : Int
deriving DecidableEq

/-- `num::clamp(value, min, max)`. -/
def numClamp (v lo hi : Int) : Int :=
  if v < lo then lo else if hi < v then hi else v

/-- `RangedValue::from_int`: clamps the initial value into the kind's range;
never fails. -/
def RangedValue.from_int (kind : RangeKind) (initial_value : Int) : RangedValue :=
  let r := make_range kind
  let value :=
    if r.1 ≤ initial_value ∧ initial_value ≤ r.2 then initial_value
    else numClamp initial_value r.1 r.2
  ⟨kind, value, r.1, r.2⟩

/-- `RangedValue::from_byte`: for kinds whose range start is negative the
byte is shifted by `-(end + 1)`, otherwise taken as is.  (No `RangeKind`
actually has a negative start.) -/
def RangedValue.from_byte (kind : RangeKind) (initial_value : Nat) : RangedValue :=
  let r := make_range kind
  let value : Int :=
    if r.1 < 0 then (initial_value : Int) - (r.2 + 1) else (initial_value : Int)
  ⟨kind, value, r.1, r.2⟩

/-- `voice_checksum` (identical in `src/dx7.rs` and `src/lib.rs`): sum all
bytes, keep the low 8 bits, complement, mask to 7 bits, add one.  The `u32`
accumulator is modelled as `Nat`; wrapping at 2^32 cannot change the result
because only `sum mod 256` is used and 256 divides 2^32. -/
def voice_checksum (data : List Nat) : Nat :=
  let sum := data.foldl (· + ·) 0
  Nat.land (255 - sum % 256) 127 + 1

/-! ### Helper lemmas -/

/-- Closed form of the checksum: 128 minus the byte sum modulo 128. -/
theorem voice_checksum_eq (data : List Nat) :
    voice_checksum data = 128 - (data.foldl (· + ·) 0) % 128 := by
  show Nat.land (255 - (data.foldl (· + ·) 0) % 256) 127 + 1 = _
  have hland : ∀ x : Nat, Nat.land x 127 = x % 128 := fun x => by
    simpa [Nat.land] using Nat.and_pow_two_sub_one_eq_mod x 7
  rw [hland]
  omega

/-- A packed operator is always exactly 17 bytes. -/
theorem operator_packed_length (op : Operator) : op.to_packed_bytes.length = 17 := rfl

/-- The padded name has length `max 10 name.length`: short names are padded
to 10 bytes, longer names pass through untouched. -/
theorem padName_length (name : List Nat) : (padName name).length = max 10 name.length := by
  unfold padName
  split_ifs with h
  · rw [List.length_append, List.length_replicate]
    omega
  · omega

/-- A packed voice is 118 bytes of fixed fields plus the padded name. -/
theorem voice_packed_length (v : Voice) :
    v.to_packed_bytes.length = 118 + (padName v.name).length := by
  simp only [Voice.to_packed_bytes, List.length_append, operator_packed_length,
    Envelope.to_bytes, Lfo.to_packed_bytes, List.length_cons, List.length_nil]
  try omega

/-- A voice whose name is at most 10 bytes packs to exactly 128 bytes. -/
theorem voice_packed_length_of_name_le (v : Voice) (h : v.name.length ≤ 10) :
    v.to_packed_bytes.length = 128 := by
  rw [voice_packed_length, padName_length]
  omega

/-- Concatenated packed voices with short names occupy 128 bytes each. -/
theorem voices_flatten_length (vs : List Voice) (h : ∀ v ∈ vs, v.name.length ≤ 10) :
    ((vs.map Voice.to_packed_bytes).flatten).length = 128 * vs.length := by
  induction vs with
  | nil => simp
  | cons v t ih =>
    simp only [List.map_cons, List.flatten_cons, List.length_append, List.length_cons]
    rw [voice_packed_length_of_name_le v (h v (by simp)),
      ih (fun w hw => h w (by simp [hw]))]
    ring

/-- The cartridge decode loop fails whenever the data runs out before
`count` chunks of 128 bytes have been read. -/
theorem cartVoicesAux_none (data : List Nat) :
    ∀ (n offset : Nat), 1 ≤ n → data.length < offset + 128 * n →
      cartVoicesAux data n offset = none := by
  intro n
  induction n with
  | zero => intro offset h1 _; exact absurd h1 (by omega)
  | succ m ih =>
    intro offset _ h2
    unfold cartVoicesAux
    rcases hs : listSlice data offset (offset + 128) with _ | s
    · rfl
    · have hc : offset ≤ offset + 128 ∧ offset + 128 ≤ data.length := by
        by_contra hcon
        rw [listSlice, if_neg hcon] at hs
        exact Option.noConfusion hs
      show ((Voice.from_packed_bytes s).bind fun v =>
        (cartVoicesAux data m (offset + 128)).bind fun rest => some (v :: rest)) = none
      rcases hv : Voice.from_packed_bytes s with _ | v
      · rfl
      · match m with
        | 0 => exact absurd hc.2 (by omega)
        | Nat.succ m' =>
          show (cartVoicesAux data (Nat.succ m') (offset + 128)).bind
            (fun rest => some (v :: rest)) = none
          rw [ih (offset + 128) (by omega) (by omega)]
          rfl

/-- Taking the first 4096 bytes does not change any slice that ends at or
before position 4096. -/
theorem listSlice_take (data : List Nat) (a b : Nat) (hb : b ≤ 4096)
    (hlen : 4096 ≤ data.length) :
    listSlice (data.take 4096) a b = listSlice data a b := by
  unfold listSlice
  have hl : (data.take 4096).length = 4096 := by rw [List.length_take]; omega
  rw [hl]
  by_cases hab : a ≤ b
  · rw [if_pos ⟨hab, hb⟩, if_pos ⟨hab, le_trans hb hlen⟩]
    rw [List.drop_take, List.take_take]
    have hmin : min (b - a) (4096 - a) = b - a := by omega
    rw [hmin]
  · rw [if_neg (by tauto), if_neg (by tauto)]

/-- The cartridge decode loop only ever reads the first 4096 bytes. -/
theorem cartVoicesAux_take (data : List Nat) (hlen : 4096 ≤ data.length) :
    ∀ (n offset : Nat), offset + 128 * n ≤ 4096 →
      cartVoicesAux (data.take 4096) n offset = cartVoicesAux data n offset := by
  intro n
  induction n with
  | zero => intro offset _; rfl
  | succ m ih =>
    intro offset h
    unfold cartVoicesAux
    rw [listSlice_take data offset (offset + 128) (by omega) hlen,
      ih (offset + 128) (by omega)]

/-- Slicing a long enough all-zero buffer yields an all-zero slice. -/
theorem listSlice_replicate (N a b : Nat) (hab : a ≤ b) (hbN : b ≤ N) :
    listSlice (List.replicate N (0 : Nat)) a b = some (List.replicate (b - a) 0) := by
  unfold listSlice
  rw [List.length_replicate, if_pos ⟨hab, hbN⟩, List.drop_replicate, List.take_replicate]
  have hmin : min (b - a) (N - a) = b - a := by omega
  rw [hmin]

/-- Decoding 128 zero bytes as a packed voice succeeds. -/
theorem voice_from_zero_bytes_isSome :
    (Voice.from_packed_bytes (List.replicate 128 0)).isSome = true := by decide

/-- The cartridge decode loop succeeds on an all-zero 4097-byte buffer as
long as it stays within the first 4096 bytes. -/
theorem cartVoicesAux_replicate_isSome :
    ∀ (n offset : Nat), offset + 128 * n ≤ 4096 →
      (cartVoicesAux (List.replicate 4097 0) n offset).isSome = true := by
  intro n
  induction n with
  | zero => intro offset _; rfl
  | succ m ih =>
    intro offset h
    unfold cartVoicesAux
    rw [listSlice_replicate 4097 offset (offset + 128) (by omega) (by omega)]
    obtain ⟨v0, hv0⟩ := Option.isSome_iff_exists.mp voice_from_zero_bytes_isSome
    have h128 : offset + 128 - offset = 128 := by omega
    rw [h128, Option.some_bind, hv0, Option.some_bind]
    rcases haux : cartVoicesAux (List.replicate 4097 0) m (offset + 128) with _ | rest
    · have := ih (offset + 128) (by omega)
      rw [haux] at this
      exact absurd this (by decide)
    · rfl

/-! ### Claim theorems -/

/-- C1: the spec requires `decode_packed(encode_packed(v)) == v` for every
in-range voice, but already for the factory init voice the decode aborts:
`osc_sync = true` sets bit 3 of packed byte 111, the decoder extracts
feedback from bits 0-4 of that byte (value 8) and `Depth::new(8)` panics,
so the round trip returns no voice at all. -/
theorem voice_packed_roundtrip_fails_on_init_voice :
    Voice.from_packed_bytes (Voice.to_packed_bytes make_init_voice) = none := by decide

/-- C2: the packed keyboard level scaling round trip fails: the encoder packs
`left | (right << 2)` but the decoder reads the left curve from the high
nibble and the right curve from the whole low nibble, so the pair of two
negative exponential curves (packed curve byte 5) decodes to the pair
(negative linear, positive linear). -/
theorem kls_packed_roundtrip_fails :
    KeyboardLevelScaling.to_packed_bytes
        ⟨39, 54, 50, ScalingCurve.exp_neg, ScalingCurve.exp_neg⟩ = [39, 54, 50, 5] ∧
    KeyboardLevelScaling.from_packed_bytes [39, 54, 50, 5] =
      some ⟨39, 54, 50, ScalingCurve.lin_neg, ScalingCurve.lin_pos⟩ ∧
    KeyboardLevelScaling.from_packed_bytes
        (KeyboardLevelScaling.to_packed_bytes
          ⟨39, 54, 50, ScalingCurve.exp_neg, ScalingCurve.exp_neg⟩) ≠
      some ⟨39, 54, 50, ScalingCurve.exp_neg, ScalingCurve.exp_neg⟩ := by
  refine ⟨by decide, by decide, by decide⟩

/-- C3: detune decoding is not the mirror of encoding: `Detune::from(u8)`
passes the wire byte to `Detune::new` without subtracting 7, so wire byte 14
(which should decode to +7) panics out of range, wire byte 0 decodes to 0
instead of -7, and re-encoding `decode(0)` gives 7, not 0. -/
theorem detune_wire_decode_not_mirrored :
    Detune.fromU8 14 = none ∧ Detune.fromU8 0 = some 0 ∧
    Detune.asByte (-7) = 0 ∧ Detune.asByte 0 = 7 := by
  refine ⟨by decide, by decide, by decide, by decide⟩

/-- C4: the encoder composes packed byte 111 as `feedback | (osc_sync << 3)`
(8 for the init voice), but the decoder does not extract feedback from bits
0-2 only: it reads bits 0-4, so a 128-byte input that is zero except for the
osc-sync bit (byte 111 = 8) makes `Depth::new(8)` panic instead of decoding
feedback 0. -/
theorem feedback_decode_breaks_on_sync_bit :
    (List.replicate 111 0 ++ 8 :: List.replicate 16 0).length = 128 ∧
    (Voice.to_packed_bytes make_init_voice).get? 111 = some 8 ∧
    Voice.from_packed_bytes (List.replicate 111 0 ++ 8 :: List.replicate 16 0) = none := by
  refine ⟨by decide, by decide, by decide⟩

/-- C5 (counterexample): decoding does not require exactly 4096 bytes — a
4097-byte input decodes successfully (only the first 4096 bytes are read),
so no length error is reported for a length other than 4096. -/
theorem cartridge_decode_succeeds_on_4097_bytes :
    (Cartridge.from_packed_bytes (List.replicate 4097 0)).isSome = true ∧
    (List.replicate 4097 0).length ≠ 4096 := by
  constructor
  · unfold Cartridge.from_packed_bytes
    have h := cartVoicesAux_replicate_isSome 32 0 (by omega)
    rcases haux : cartVoicesAux (List.replicate 4097 0) 32 0 with _ | vs
    · rw [haux] at h
      exact absurd h (by decide)
    · rfl
  · rw [List.length_replicate]
    omega

/-- C5 (amended): encoding a cartridge of 32 voices with names of at most 10
bytes yields exactly 4096 bytes; decoding an input shorter than 4096 bytes
aborts with a panic (modelled `none`), not a recoverable length error; and
decoding reads only the first 4096 bytes, accepting longer input. -/
theorem cartridge_length_behavior :
    (∀ c : Cartridge, c.voices.length = 32 → (∀ v ∈ c.voices, v.name.length ≤ 10) →
      c.to_packed_bytes.length = 4096) ∧
    (∀ data : List Nat, data.length < 4096 → Cartridge.from_packed_bytes data = none) ∧
    (∀ data : List Nat, 4096 ≤ data.length →
      Cartridge.from_packed_bytes data = Cartridge.from_packed_bytes (data.take 4096)) := by
  refine ⟨?_, ?_, ?_⟩
  · intro c h1 h2
    show ((c.voices.map Voice.to_packed_bytes).flatten).length = 4096
    rw [voices_flatten_length c.voices h2, h1]
  · intro data h
    unfold Cartridge.from_packed_bytes
    rw [cartVoicesAux_none data 32 0 (by omega) (by omega)]
  · intro data h
    unfold Cartridge.from_packed_bytes
    rw [cartVoicesAux_take data h 32 0 (by omega)]

/-- C5 (witness): the three parts of `cartridge_length_behavior` applied to a
32-voice init cartridge, a 100-byte input, and a 4097-byte input. -/
theorem cartridge_length_behavior_witness :
    (Cartridge.to_packed_bytes ⟨List.replicate 32 make_init_voice⟩).length = 4096 ∧
    Cartridge.from_packed_bytes (List.replicate 100 0) = none ∧
    Cartridge.from_packed_bytes (List.replicate 4097 0) =
      Cartridge.from_packed_bytes ((List.replicate 4097 0).take 4096) :=
  ⟨cartridge_length_behavior.1 ⟨List.replicate 32 make_init_voice⟩
      (by rw [List.length_replicate])
      (fun v hv => by rw [List.eq_of_mem_replicate hv]; decide),
   cartridge_length_behavior.2.1 _ (by rw [List.length_replicate]; omega),
   cartridge_length_behavior.2.2 _ (by rw [List.length_replicate]; omega)⟩

/-- C6 (counterexample): constructing an out-of-range output level through
the `src/dx7.rs` newtype constructor is not clamped: `UnsignedLevel::new(192)`
panics (modelled `none`) instead of yielding 99. -/
theorem unsigned_level_new_192_panics : UnsignedLevel.new 192 = none := by decide

/-- C6 (amended): `RangedValue::from_int` (src/lib.rs) is total and clamps —
192 becomes 99, -5 becomes 0, and every constructed value lies inside its
kind's range — but the `Subrange` newtype constructors of `src/dx7.rs` panic
on out-of-range input instead of clamping (`UnsignedLevel::new(192)`). -/
theorem ranged_value_from_int_clamps :
    (RangedValue.from_int RangeKind.OutputLevel 192).value = 99 ∧
    (RangedValue.from_int RangeKind.OutputLevel (-5)).value = 0 ∧
    (∀ (k : RangeKind) (v : Int),
      (make_range k).1 ≤ (RangedValue.from_int k v).value ∧
      (RangedValue.from_int k v).value ≤ (make_range k).2) ∧
    UnsignedLevel.new 192 = none := by
  refine ⟨by decide, by decide, ?_, by decide⟩
  intro k v
  cases k <;> simp only [RangedValue.from_int, make_range, numClamp] <;>
    split_ifs <;> simp_all

/-- C7: packed voices are not always 128 bytes because long names are not
truncated: `format!("\x7b:<10\x7d", name)` only pads, so an 11-byte name
produces a 129-byte packed voice (and trips the 128-byte length assertion in
the `src/lib.rs` variant). -/
theorem voice_packed_length_129_on_11_byte_name :
    ({ make_init_voice with
        name := [65, 66, 67, 68, 69, 70, 71, 72, 73, 74, 75] } : Voice).name.length = 11 ∧
    (Voice.to_packed_bytes { make_init_voice with
        name := [65, 66, 67, 68, 69, 70, 71, 72, 73, 74, 75] }).length = 129 := by
  refine ⟨by decide, by decide⟩

/-- C8: transpose wire scaling — wire byte 24 decodes to 0 octaves, wire
byte 12 decodes to -1 octave, and encoding n octaves (n in -2...2) produces
the wire byte (n + 2) * 12 (so +1 octave encodes to 36). -/
theorem transpose_wire_scaling :
    Transpose.from_byte 24 = 0 ∧ Transpose.from_byte 12 = -1 ∧
    ∀ n : Int, -2 ≤ n → n ≤ 2 →
      Transpose.as_byte (Transpose.new n) = ((n + 2) * 12).toNat := by
  refine ⟨by decide, by decide, ?_⟩
  intro n h1 h2
  interval_cases n <;> decide

/-- C8 (witness): `transpose_wire_scaling` instantiated at +1 octave. -/
theorem transpose_wire_scaling_witness :
    Transpose.as_byte (Transpose.new 1) = 36 :=
  (transpose_wire_scaling.2.2 1 (by decide) (by decide)).trans (by decide)

/-- C9: the checksum always lies in 1...128, and whenever the low 7 bits of
the byte sum vanish it is exactly 128 = 0x80, whose bit 7 is set (not a
7-bit-safe MIDI data byte). -/
theorem voice_checksum_range (data : List Nat) :
    (1 ≤ voice_checksum data ∧ voice_checksum data ≤ 128) ∧
    ((data.foldl (· + ·) 0) % 128 = 0 →
      voice_checksum data = 128 ∧ Nat.testBit (voice_checksum data) 7 = true) := by
  have he := voice_checksum_eq data
  have hlt : (data.foldl (· + ·) 0) % 128 < 128 := Nat.mod_lt _ (by norm_num)
  refine ⟨⟨by omega, by omega⟩, ?_⟩
  intro h0
  have h128 : voice_checksum data = 128 := by omega
  exact ⟨h128, by rw [h128]; decide⟩

/-- C9 (witness): `voice_checksum_range` on the empty byte sequence, whose
sum has vanishing low 7 bits. -/
theorem voice_checksum_range_witness :
    voice_checksum [] = 128 ∧ Nat.testBit (voice_checksum []) 7 = true :=
  (voice_checksum_range []).2 (by decide)

/-- C10: transpose decoding truncates toward zero, so wire bytes 13...35 all
decode to 0 octaves, wire bytes 1...11 all decode to -1 octave, and over the
whole byte range re-encoding reproduces the wire byte exactly for
0, 12, 24, 36 and 48 only. -/
theorem transpose_from_byte_truncation :
    ∀ b : Nat, b < 256 →
      ((13 ≤ b ∧ b ≤ 35) → Transpose.from_byte b = 0) ∧
      ((1 ≤ b ∧ b ≤ 11) → Transpose.from_byte b = -1) ∧
      (Transpose.as_byte (Transpose.from_byte b) = b ↔
        b = 0 ∨ b = 12 ∨ b = 24 ∨ b = 36 ∨ b = 48) := by decide

/-- C10 (witness): `transpose_from_byte_truncation` at wire bytes 13 and 11. -/
theorem transpose_from_byte_truncation_witness :
    Transpose.from_byte 13 = 0 ∧ Transpose.from_byte 11 = -1 :=
  ⟨(transpose_from_byte_truncation 13 (by decide)).1 (by decide),
   (transpose_from_byte_truncation 11 (by decide)).2.1 (by decide)⟩

end Sevenator
